import Mathlib

/-!
Verification of the stealth-payments proof of concept (`src/poc.js`) and of the
spec-described resolver/scanner utilities against the repository's
natural-language specification.

Hex strings are embedded as `List Char`, byte buffers as `List Nat`
(each entry a byte value), and big numbers as `Nat` with explicit `% m`
where the JavaScript big-number libraries reduce.
-/

set_option maxRecDepth 4000000

namespace StealthPayments

/-! ### Hex string primitives

`hexVal`/`natOfHex` embed base-16 parsing as done by `BN(str, 16)` (elliptic)
and `ethers.BigNumber.from('0x' + str)`.  `hexDigitsAux`/`bnToHex` embed
`BN.toString('hex')` (minimal-length lowercase hex, `"0"` for zero), and
`ethersHex` embeds `ethers.BigNumber.toHexString()` without its `0x` prefix
(minimal-length hex padded to an even number of digits, `"00"` for zero). -/

def hexVal (c : Char) : Nat :=
  if '0' ≤ c ∧ c ≤ '9' then c.toNat - '0'.toNat
  else if 'a' ≤ c ∧ c ≤ 'f' then c.toNat - 'a'.toNat + 10
  else if 'A' ≤ c ∧ c ≤ 'F' then c.toNat - 'A'.toNat + 10
  else 0

def natOfHex (s : List Char) : Nat :=
  s.foldl (fun a c => a * 16 + hexVal c) 0

def hexChar (d : Nat) : Char :=
  if d < 10 then Char.ofNat ('0'.toNat + d) else Char.ofNat ('a'.toNat + d - 10)

def hexDigitsAux : Nat → Nat → List Char
  | 0, _ => []
  | f + 1, v => if v = 0 then [] else hexDigitsAux f (v / 16) ++ [hexChar (v % 16)]

def bnToHex (v : Nat) : List Char :=
  if v = 0 then ['0'] else hexDigitsAux v v

def ethersHex (v : Nat) : List Char :=
  if v = 0 then ['0', '0']
  else
    let h := hexDigitsAux v v
    if h.length % 2 = 1 then '0' :: h else h

/-- Embedding of `pad32ByteHex` (src/poc.js lines 25-27):
`hex.padStart(64, 0)`, i.e. left-pad with the character `'0'` up to
length 64, returning longer inputs unchanged. -/
def pad32ByteHex (hex : List Char) : List Char :=
  List.replicate (64 - hex.length) '0' ++ hex

/-! ### Round-trip lemmas for the hex embedding -/

theorem hexVal_hexChar (d : Nat) (hd : d < 16) : hexVal (hexChar d) = d := by
  have h16 : ∀ i : Fin 16, hexVal (hexChar i.val) = i.val := by decide
  exact h16 ⟨d, hd⟩

theorem natOfHex_append_digit (xs : List Char) (c : Char) :
    natOfHex (xs ++ [c]) = natOfHex xs * 16 + hexVal c := by
  simp [natOfHex, List.foldl_append]

theorem natOfHex_hexDigitsAux (f v : Nat) (h : v ≤ f) :
    natOfHex (hexDigitsAux f v) = v := by
  induction f generalizing v with
  | zero =>
    have : v = 0 := Nat.le_zero.mp h
    subst this
    simp [hexDigitsAux, natOfHex]
  | succ f ih =>
    by_cases hv : v = 0
    · subst hv; simp [hexDigitsAux, natOfHex]
    · have hlt : v / 16 < v := Nat.div_lt_self (Nat.pos_of_ne_zero hv) (by omega)
      have hf : v / 16 ≤ f := by omega
      rw [hexDigitsAux, if_neg hv, natOfHex_append_digit, ih _ hf,
        hexVal_hexChar _ (Nat.mod_lt _ (by omega))]
      omega

theorem natOfHex_bnToHex (v : Nat) : natOfHex (bnToHex v) = v := by
  by_cases hv : v = 0
  · subst hv; simp [bnToHex, natOfHex, hexVal]
  · rw [bnToHex, if_neg hv]
    exact natOfHex_hexDigitsAux v v le_rfl

theorem natOfHex_cons_zero (xs : List Char) :
    natOfHex ('0' :: xs) = natOfHex xs := by
  have h0 : (0 : Nat) * 16 + hexVal '0' = 0 := by decide
  simp only [natOfHex, List.foldl_cons, h0]

theorem natOfHex_ethersHex (v : Nat) : natOfHex (ethersHex v) = v := by
  by_cases hv : v = 0
  · subst hv; simp [ethersHex, natOfHex, hexVal]
  · rw [ethersHex, if_neg hv]
    by_cases hodd : (hexDigitsAux v v).length % 2 = 1
    · rw [if_pos hodd, natOfHex_cons_zero]
      exact natOfHex_hexDigitsAux v v le_rfl
    · rw [if_neg hodd]
      exact natOfHex_hexDigitsAux v v le_rfl

/-! ### Claims C2 and C10: `pad32ByteHex` -/

/-- Claim C2: `pad32ByteHex` is idempotent, and for every input of at most
64 hex characters (every secp256k1 coordinate) it returns exactly 64
characters, zero-padding shorter inputs on the left. -/
theorem pad32ByteHex_idempotent_and_64 (h : List Char) :
    pad32ByteHex (pad32ByteHex h) = pad32ByteHex h ∧
    (h.length ≤ 64 →
      (pad32ByteHex h).length = 64 ∧
      pad32ByteHex h = List.replicate (64 - h.length) '0' ++ h) := by
  refine ⟨?_, fun hlen => ⟨?_, rfl⟩⟩
  · have hlen2 : (pad32ByteHex h).length = 64 - h.length + h.length := by
      simp [pad32ByteHex]
    have : 64 - (pad32ByteHex h).length = 0 := by omega
    rw [pad32ByteHex, this]
    simp
  · simp [pad32ByteHex]
    omega

/-- Witness for C2 at a concrete 62-character coordinate input. -/
theorem pad32ByteHex_idempotent_and_64_witness :
    pad32ByteHex (pad32ByteHex (List.replicate 62 'a')) =
        pad32ByteHex (List.replicate 62 'a') ∧
    ((List.replicate 62 'a').length ≤ 64 →
      (pad32ByteHex (List.replicate 62 'a')).length = 64 ∧
      pad32ByteHex (List.replicate 62 'a') =
        List.replicate (64 - (List.replicate 62 'a').length) '0' ++
          List.replicate 62 'a') :=
  pad32ByteHex_idempotent_and_64 (List.replicate 62 'a')

/-- Claim C10: `pad32ByteHex` never truncates: inputs of length at least 64
are returned unchanged, the output length is the maximum of 64 and the input
length, and the input is a suffix of the output. -/
theorem pad32ByteHex_no_truncation (h : List Char) :
    (64 ≤ h.length → pad32ByteHex h = h) ∧
    (pad32ByteHex h).length = max 64 h.length ∧
    h.IsSuffix (pad32ByteHex h) := by
  refine ⟨fun hlen => ?_, ?_, ⟨List.replicate (64 - h.length) '0', rfl⟩⟩
  · have : 64 - h.length = 0 := by omega
    rw [pad32ByteHex, this]
    simp
  · simp [pad32ByteHex]
    omega

/-- Witness for C10 at a concrete 70-character input. -/
theorem pad32ByteHex_no_truncation_witness :
    (64 ≤ (List.replicate 70 'b').length →
      pad32ByteHex (List.replicate 70 'b') = List.replicate 70 'b') ∧
    (pad32ByteHex (List.replicate 70 'b')).length =
      max 64 (List.replicate 70 'b').length ∧
    (List.replicate 70 'b').IsSuffix (pad32ByteHex (List.replicate 70 'b')) :=
  pad32ByteHex_no_truncation (List.replicate 70 'b')

/-! ### secp256k1 constants (from the elliptic library's curve definition) -/

/-- The secp256k1 base-field prime. -/
def pSecp : Nat :=
  0xfffffffffffffffffffffffffffffffffffffffffffffffffffffffefffffc2f

/-- The secp256k1 group order `ec.n` (poc.js line 157). -/
def nOrder : Nat :=
  0xfffffffffffffffffffffffffffffffebaaedce6af48a03bbfd25e8cd0364141

/-- Generator X coordinate `ec.g.getX()`. -/
def gX : Nat :=
  0x79be667ef9dcbbac55a06295ce870b07029bfcdb2dce28d959f2815b16f81798

/-- Generator Y coordinate `ec.g.getY()`. -/
def gY : Nat :=
  0x483ada7726a3c4655da4fbfc0e1108a8fd17b448a68554199c47d08ffb10d4b8

/-! ### Claim C4: the recipient-side stealth private key -/

/-- Embedding of poc.js lines 148-157 as a function of the recipient's
private-key value `d` and the parsed random value `r`.  elliptic's
`keyFromPrivate` reduces the imported scalar modulo the group order, so
`getPrivate()` yields `d % nOrder`; its hex rendering is re-parsed by
`ethers.BigNumber.from` (lines 149-151), multiplied by `r` at arbitrary
precision, rendered by `toHexString().slice(2)` (line 152), re-parsed
(line 156), and reduced modulo `ec.n` (line 157). -/
def stealthPrivateKey (d r : Nat) : Nat :=
  natOfHex (ethersHex (natOfHex (bnToHex (d % nOrder)) * r)) % nOrder

/-- Claim C4: the recipient-side stealth private key is the raw unbounded
product `d * r` reduced modulo the secp256k1 group order, and it always
lies in `[0, nOrder)`. -/
theorem stealthPrivateKey_eq_mul_mod (d r : Nat) :
    stealthPrivateKey d r = d * r % nOrder ∧ stealthPrivateKey d r < nOrder := by
  have hn : 0 < nOrder := by norm_num [nOrder]
  have h1 : stealthPrivateKey d r = d % nOrder * r % nOrder := by
    rw [stealthPrivateKey, natOfHex_ethersHex, natOfHex_bnToHex]
  constructor
  · rw [h1]
    exact (Nat.mod_modEq d nOrder).mul_right r
  · exact Nat.mod_lt _ hn

/-- Witness for C4 at `d = 5`, `r = 7`. -/
theorem stealthPrivateKey_eq_mul_mod_witness :
    stealthPrivateKey 5 7 = 5 * 7 % nOrder ∧ stealthPrivateKey 5 7 < nOrder :=
  stealthPrivateKey_eq_mul_mod 5 7

/-! ### Claim C5: public-key recovery self-check -/

/-- Error taxonomy of the specification (section 7) restricted to the
conditions the formalised claims mention. -/
inductive PocError where
  | RecoveryMismatch
  | KeyMismatch
  | PointNotOnCurve
  | PointAtInfinity
  | UnsupportedIdentifier
  | IdentifierNotResolved
  | NotRegistered
deriving DecidableEq, Repr

/-- Embedding of poc.js step 1 (lines 48-51): the recovered public key is
compared with the signer's declared public key; any mismatch aborts, and the
recovered key is only yielded past the comparison. -/
def checkRecoveredPublicKey (recoveredPublicKey declaredPublicKey : List Char) :
    Except PocError (List Char) :=
  if recoveredPublicKey ≠ declaredPublicKey then Except.error PocError.RecoveryMismatch
  else Except.ok recoveredPublicKey

/-- Claim C5: recovery never returns a key without passing the self-check:
on any mismatch the operation aborts with `RecoveryMismatch`, and a returned
key implies the recovered and declared keys were equal. -/
theorem recovery_self_check (recovered declared : List Char) :
    (recovered ≠ declared →
      checkRecoveredPublicKey recovered declared =
        Except.error PocError.RecoveryMismatch) ∧
    ∀ k, checkRecoveredPublicKey recovered declared = Except.ok k →
      recovered = declared ∧ k = recovered := by
  unfold checkRecoveredPublicKey
  by_cases h : recovered = declared
  · subst h
    simp
  · simp [h]

/-- Witness for C5 at concrete mismatching keys. -/
theorem recovery_self_check_witness :
    checkRecoveredPublicKey ['a'] ['b'] =
      Except.error PocError.RecoveryMismatch :=
  (recovery_self_check ['a'] ['b']).1 (by decide)

/-! ### Claim C9: both sides consume the same scalar -/

/-- Big-endian byte-array value, as `ethers.BigNumber.from(Uint8Array)`
interprets the 32 random bytes (poc.js line 69). -/
def natOfBytesBE (bytes : List Nat) : Nat :=
  bytes.foldl (fun a b => a * 256 + b) 0

/-- Embedding of poc.js line 69: the shared hex string
`BigNumber.from(randomArray).toHexString().slice(2)` (leading zero bytes of
the array are stripped by the conversion, so the string may be shorter than
64 characters). -/
def randomValue (randomArray : List Nat) : List Char :=
  ethersHex (natOfBytesBE randomArray)

/-- Embedding of the scalar consumed at poc.js line 104: elliptic's
`mul(randomValue)` parses the hex string base 16. -/
def senderScalar (randomArray : List Nat) : Nat :=
  natOfHex (randomValue randomArray)

/-- Embedding of the scalar consumed at poc.js line 148:
`BigNumber.from('0x' + randomValue)` parses the same hex string base 16. -/
def recipientScalar (randomArray : List Nat) : Nat :=
  natOfHex (randomValue randomArray)

/-- Claim C9: for every 32-byte random array, the sender-side and
recipient-side scalars both denote the big-endian integer value of the
array, hence agree, even when leading zero bytes shorten the hex string. -/
theorem scalars_agree (randomArray : List Nat) (_hlen : randomArray.length = 32) :
    senderScalar randomArray = natOfBytesBE randomArray ∧
    recipientScalar randomArray = natOfBytesBE randomArray ∧
    senderScalar randomArray = recipientScalar randomArray := by
  refine ⟨?_, ?_, rfl⟩ <;>
    simp [senderScalar, recipientScalar, randomValue, natOfHex_ethersHex]

/-- Witness for C9 at a concrete 32-byte array whose 31 leading zero bytes
are stripped by the big-number conversion. -/
theorem scalars_agree_witness :
    senderScalar (List.replicate 31 0 ++ [5]) =
      natOfBytesBE (List.replicate 31 0 ++ [5]) ∧
    recipientScalar (List.replicate 31 0 ++ [5]) =
      natOfBytesBE (List.replicate 31 0 ++ [5]) ∧
    senderScalar (List.replicate 31 0 ++ [5]) =
      recipientScalar (List.replicate 31 0 ++ [5]) :=
  scalars_agree (List.replicate 31 0 ++ [5]) (by decide)

/-! ### secp256k1 affine arithmetic

Executable embedding of the curve operations the poc uses through the
elliptic library: affine point addition and doubling over the base field,
with the point at infinity represented by `none`, and double-and-add scalar
multiplication (structural recursion on a fuel bound so every definition
evaluates in the kernel). -/

def fAdd (a b : Nat) : Nat := (a + b) % pSecp

def fSub (a b : Nat) : Nat := (a + (pSecp - b % pSecp)) % pSecp

def fMul (a b : Nat) : Nat := a * b % pSecp

def powModAux : Nat → Nat → Nat → Nat → Nat
  | 0, _, _, m => 1 % m
  | f + 1, b, e, m =>
    if e = 0 then 1 % m
    else
      let h := powModAux f b (e / 2) m
      if e % 2 = 0 then h * h % m else h * h % m * b % m

def powMod (b e m : Nat) : Nat := powModAux (e + 1) b e m

/-- Modular inverse in the secp256k1 base field via Fermat's little theorem. -/
def invMod (a : Nat) : Nat := powMod a (pSecp - 2) pSecp

/-- An affine secp256k1 point; `none` is the point at infinity. -/
abbrev ECPoint := Option (Nat × Nat)

def pDouble : ECPoint → ECPoint
  | none => none
  | some (x, y) =>
    if y % pSecp = 0 then none
    else
      let lam := fMul (fMul 3 (fMul x x)) (invMod (fMul 2 y))
      let x3 := fSub (fMul lam lam) (fAdd x x)
      some (x3, fSub (fMul lam (fSub x x3)) y)

def pAdd (P Q : ECPoint) : ECPoint :=
  match P, Q with
  | none, Q => Q
  | P, none => P
  | some (x1, y1), some (x2, y2) =>
    if x1 % pSecp = x2 % pSecp then
      if (y1 + y2) % pSecp = 0 then none else pDouble (some (x1, y1))
    else
      let lam := fMul (fSub y2 y1) (invMod (fSub x2 x1))
      let x3 := fSub (fSub (fMul lam lam) x1) x2
      some (x3, fSub (fMul lam (fSub x1 x3)) y1)

def ecMulAux : Nat → Nat → ECPoint → ECPoint
  | 0, _, _ => none
  | f + 1, k, P =>
    if k = 0 then none
    else
      let h := ecMulAux f (k / 2) P
      let d := pAdd h h
      if k % 2 = 1 then pAdd d P else d

/-- Scalar multiplication `k · P` (elliptic's `mul`). -/
def ecMul (k : Nat) (P : ECPoint) : ECPoint := ecMulAux (k + 1) k P

/-- Scalar multiplication by the generator, `ec.g.mul` /
`keyFromPrivate(..).getPublic()`. -/
def ecMulG (k : Nat) : ECPoint := ecMul k (some (gX, gY))

/-! ### Keccak-256 (the js-sha3 `keccak256` used at poc.js lines 112 and 169)

Lanes are 64-bit words embedded as `Nat` masked to `2 ^ 64`; the state is
the standard 25-lane list in lane order `x + 5 * y`. -/

def mask64 : Nat := 2 ^ 64 - 1

def rotl64 (x s : Nat) : Nat :=
  ((x <<< s) &&& mask64) ||| (x >>> (64 - s))

/-- The 24 Keccak-f round constants. -/
def keccakRC : List Nat :=
  [0x0000000000000001, 0x0000000000008082, 0x800000000000808a,
     0x8000000080008000, 0x000000000000808b, 0x0000000080000001,
     0x8000000080008081, 0x8000000000008009, 0x000000000000008a,
     0x0000000000000088, 0x0000000080008009, 0x000000008000000a,
     0x000000008000808b, 0x800000000000008b, 0x8000000000008089,
     0x8000000000008003, 0x8000000000008002, 0x8000000000000080,
     0x000000000000800a, 0x800000008000000a, 0x8000000080008081,
     0x8000000000008080, 0x0000000080000001, 0x8000000080008008]

/-- One Keccak-f[1600] round: theta, rho, pi, chi and iota on an explicit
25-lane state. -/
def keccakRound (rc : Nat) (A : List Nat) : List Nat :=
  match A with
  | [a0, a1, a2, a3, a4, a5, a6, a7, a8, a9, a10, a11, a12, a13, a14, a15, a16, a17, a18, a19, a20, a21, a22, a23, a24] =>
    let c0 := a0 ^^^ a5 ^^^ a10 ^^^ a15 ^^^ a20
    let c1 := a1 ^^^ a6 ^^^ a11 ^^^ a16 ^^^ a21
    let c2 := a2 ^^^ a7 ^^^ a12 ^^^ a17 ^^^ a22
    let c3 := a3 ^^^ a8 ^^^ a13 ^^^ a18 ^^^ a23
    let c4 := a4 ^^^ a9 ^^^ a14 ^^^ a19 ^^^ a24
    let d0 := c4 ^^^ rotl64 c1 1
    let d1 := c0 ^^^ rotl64 c2 1
    let d2 := c1 ^^^ rotl64 c3 1
    let d3 := c2 ^^^ rotl64 c4 1
    let d4 := c3 ^^^ rotl64 c0 1
    let t0 := a0 ^^^ d0
    let t1 := a1 ^^^ d1
    let t2 := a2 ^^^ d2
    let t3 := a3 ^^^ d3
    let t4 := a4 ^^^ d4
    let t5 := a5 ^^^ d0
    let t6 := a6 ^^^ d1
    let t7 := a7 ^^^ d2
    let t8 := a8 ^^^ d3
    let t9 := a9 ^^^ d4
    let t10 := a10 ^^^ d0
    let t11 := a11 ^^^ d1
    let t12 := a12 ^^^ d2
    let t13 := a13 ^^^ d3
    let t14 := a14 ^^^ d4
    let t15 := a15 ^^^ d0
    let t16 := a16 ^^^ d1
    let t17 := a17 ^^^ d2
    let t18 := a18 ^^^ d3
    let t19 := a19 ^^^ d4
    let t20 := a20 ^^^ d0
    let t21 := a21 ^^^ d1
    let t22 := a22 ^^^ d2
    let t23 := a23 ^^^ d3
    let t24 := a24 ^^^ d4
    let b0 := t0
    let b1 := rotl64 t6 44
    let b2 := rotl64 t12 43
    let b3 := rotl64 t18 21
    let b4 := rotl64 t24 14
    let b5 := rotl64 t3 28
    let b6 := rotl64 t9 20
    let b7 := rotl64 t10 3
    let b8 := rotl64 t16 45
    let b9 := rotl64 t22 61
    let b10 := rotl64 t1 1
    let b11 := rotl64 t7 6
    let b12 := rotl64 t13 25
    let b13 := rotl64 t19 8
    let b14 := rotl64 t20 18
    let b15 := rotl64 t4 27
    let b16 := rotl64 t5 36
    let b17 := rotl64 t11 10
    let b18 := rotl64 t17 15
    let b19 := rotl64 t23 56
    let b20 := rotl64 t2 62
    let b21 := rotl64 t8 55
    let b22 := rotl64 t14 39
    let b23 := rotl64 t15 41
    let b24 := rotl64 t21 2
    [(b0 ^^^ ((b1 ^^^ mask64) &&& b2)) ^^^ rc,
     b1 ^^^ ((b2 ^^^ mask64) &&& b3),
     b2 ^^^ ((b3 ^^^ mask64) &&& b4),
     b3 ^^^ ((b4 ^^^ mask64) &&& b0),
     b4 ^^^ ((b0 ^^^ mask64) &&& b1),
     b5 ^^^ ((b6 ^^^ mask64) &&& b7),
     b6 ^^^ ((b7 ^^^ mask64) &&& b8),
     b7 ^^^ ((b8 ^^^ mask64) &&& b9),
     b8 ^^^ ((b9 ^^^ mask64) &&& b5),
     b9 ^^^ ((b5 ^^^ mask64) &&& b6),
     b10 ^^^ ((b11 ^^^ mask64) &&& b12),
     b11 ^^^ ((b12 ^^^ mask64) &&& b13),
     b12 ^^^ ((b13 ^^^ mask64) &&& b14),
     b13 ^^^ ((b14 ^^^ mask64) &&& b10),
     b14 ^^^ ((b10 ^^^ mask64) &&& b11),
     b15 ^^^ ((b16 ^^^ mask64) &&& b17),
     b16 ^^^ ((b17 ^^^ mask64) &&& b18),
     b17 ^^^ ((b18 ^^^ mask64) &&& b19),
     b18 ^^^ ((b19 ^^^ mask64) &&& b15),
     b19 ^^^ ((b15 ^^^ mask64) &&& b16),
     b20 ^^^ ((b21 ^^^ mask64) &&& b22),
     b21 ^^^ ((b22 ^^^ mask64) &&& b23),
     b22 ^^^ ((b23 ^^^ mask64) &&& b24),
     b23 ^^^ ((b24 ^^^ mask64) &&& b20),
     b24 ^^^ ((b20 ^^^ mask64) &&& b21)]
  | _ => A

def keccakF (A : List Nat) : List Nat :=
  keccakRC.foldl (fun st rc => keccakRound rc st) A

/-- Little-endian load of up to 8 bytes into a lane. -/
def natOfBytesLE (bs : List Nat) : Nat :=
  bs.foldr (fun b a => a * 256 + b) 0

/-- The 25 lanes absorbed from one 136-byte rate block (capacity lanes
are zero). -/
def lanesOfBlock (block : List Nat) : List Nat :=
  ((List.range 17).map (fun i => natOfBytesLE ((block.drop (8 * i)).take 8)))
    ++ List.replicate 8 0

/-- Original Keccak multi-rate padding (pad byte 0x01, final bit 0x80). -/
def keccakPad (msg : List Nat) : List Nat :=
  let padLen := 136 - msg.length % 136
  if padLen = 1 then msg ++ [0x81]
  else msg ++ [0x01] ++ List.replicate (padLen - 2) 0 ++ [0x80]

def chunks136 : Nat → List Nat → List (List Nat)
  | 0, _ => []
  | _, [] => []
  | f + 1, l => l.take 136 :: chunks136 f (l.drop 136)

def absorb (blocks : List (List Nat)) : List Nat :=
  blocks.foldl
    (fun st blk => keccakF (List.zipWith (fun a b => a ^^^ b) st (lanesOfBlock blk)))
    (List.replicate 25 0)

def bytesOfLane (x : Nat) : List Nat :=
  (List.range 8).map (fun i => (x >>> (8 * i)) % 256)

/-- Keccak-256 of a byte list, as computed by js-sha3. -/
def keccak256 (msg : List Nat) : List Nat :=
  let padded := keccakPad msg
  let final := absorb (chunks136 padded.length padded)
  (final.take 4).foldr (fun lane acc => bytesOfLane lane ++ acc) []


/-! ### The two stealth-address pipelines of src/poc.js -/

/-- Embedding of Node's `new Buffer(str, 'hex')`: consumes hex digits in
pairs; a trailing unpaired digit is dropped. -/
def bufferFromHex : List Char → List Nat
  | c1 :: c2 :: rest => (16 * hexVal c1 + hexVal c2) :: bufferFromHex rest
  | _ => []

/-- Lowercase hex rendering of a byte buffer, `buffer.toString('hex')`. -/
def hexOfBytes (bs : List Nat) : List Char :=
  bs.foldr (fun b acc => hexChar (b / 16) :: hexChar (b % 16) :: acc) []

/-- The address rendering shared by poc.js lines 115-116 and 172-173:
take the last 20 bytes of the hash and prepend `0x`. -/
def addressOfHashBytes (hash : List Nat) : List Char :=
  '0' :: 'x' :: hexOfBytes (hash.drop (hash.length - 20))

/-- Embedding of the sender-side derivation `stealthAddress`
(poc.js lines 89-116) as a function of the recipient public key's two
64-character coordinate strings and of the `randomValue` hex string:
parse the coordinates (line 98), multiply the point by the random value
(line 104), render both stealth coordinates with `pad32ByteHex` applied
(lines 107-109), hash the decoded concatenation (line 112) and keep the
last 20 bytes (lines 115-116).  `none` models the undefined coordinate
access if the product were the point at infinity. -/
def stealthAddress (receiverPublicKeyX receiverPublicKeyY randomValue : List Char) :
    Option (List Char) :=
  let P : ECPoint := some (natOfHex receiverPublicKeyX, natOfHex receiverPublicKeyY)
  match ecMul (natOfHex randomValue) P with
  | none => none
  | some (sx, sy) =>
    let stealthPublicKey := pad32ByteHex (bnToHex sx) ++ pad32ByteHex (bnToHex sy)
    some (addressOfHashBytes (keccak256 (bufferFromHex stealthPublicKey)))

/-- Embedding of the consistency check at poc.js lines 126-143: the public
point of the supplied private key (elliptic reduces the imported scalar
modulo the group order) is rendered with `pad32ByteHex` on both coordinates
and compared against the published coordinate strings.  The point at
infinity has no coordinates, so it can match no published pair. -/
def publicKeyMatches
    (receiverPrivateKey receiverPublicKeyX receiverPublicKeyY : List Char) : Bool :=
  match ecMulG (natOfHex receiverPrivateKey % nOrder) with
  | none => false
  | some (dx, dy) =>
    receiverPublicKeyX == pad32ByteHex (bnToHex dx) &&
    receiverPublicKeyY == pad32ByteHex (bnToHex dy)

/-- Embedding of the recipient-side derivation `stealthAddress2`
(poc.js lines 126-183): verify the private key against the published
public key (lines 131-143, `KeyMismatch` on failure), reduce the raw
product modulo the curve order (lines 148-157), multiply the generator by
the result (line 161), and hash the coordinate concatenation — which at
lines 162-166 takes `toString('hex')` of each coordinate WITHOUT applying
`pad32ByteHex` — keeping the last 20 bytes (lines 169-173). -/
def stealthAddress2
    (receiverPrivateKey receiverPublicKeyX receiverPublicKeyY randomValue : List Char) :
    Except PocError (List Char) :=
  if publicKeyMatches receiverPrivateKey receiverPublicKeyX receiverPublicKeyY then
    let sk := stealthPrivateKey (natOfHex receiverPrivateKey) (natOfHex randomValue)
    match ecMulG (natOfHex (ethersHex sk)) with
    | none => Except.error PocError.PointAtInfinity
    | some (x2, y2) =>
      let stealthPublicKey2 := bnToHex x2 ++ bnToHex y2
      Except.ok (addressOfHashBytes (keccak256 (bufferFromHex stealthPublicKey2)))
  else Except.error PocError.KeyMismatch

/-! ### Claim C7: the private-key/public-key consistency check -/

/-- Claim C7: whenever the public point derived from the supplied private
key does not match the published recipient public key on both coordinates,
the recipient-side derivation fails with `KeyMismatch` and produces no
stealth key material. -/
theorem stealthAddress2_keyMismatch
    (priv pubX pubY rv : List Char)
    (h : publicKeyMatches priv pubX pubY = false) :
    stealthAddress2 priv pubX pubY rv = Except.error PocError.KeyMismatch := by
  simp [stealthAddress2, h]

/-- Witness for C7: private key 1 against junk published coordinates. -/
theorem stealthAddress2_keyMismatch_witness :
    stealthAddress2 ['0', '1'] ['0'] ['0'] ['0', 'd'] =
      Except.error PocError.KeyMismatch :=
  stealthAddress2_keyMismatch ['0', '1'] ['0'] ['0'] ['0', 'd'] (by decide)

/-! ### Claim C1: the two derivations disagree on the code's failing inputs

The stealth point for private key `d = 1` and random value `r = 13` is
`13 · G`, whose Y coordinate has only 63 hex digits.  The sender pads it to
64 digits before hashing (poc.js line 108), but the recipient concatenates
the unpadded 64 + 63 = 127 hex digits (lines 162-166), so `new Buffer`
drops the final nibble and a 63-byte buffer is hashed: the two addresses
differ and the code's own equality check at line 181 throws. -/

set_option maxRecDepth 1000000 in
/-- Claim C1 (refuted by the code): at receiver private key 1 and shared
random value 13 the sender-side address and the recipient-side address are
both computed, yet they differ, because the recipient-side derivation omits
the zero-padding of the coordinates before hashing. -/
theorem stealthAddress_c1_divergence :
    stealthAddress (pad32ByteHex (bnToHex gX)) (pad32ByteHex (bnToHex gY))
        ['0', 'd'] =
      some ['0', 'x', '6', '8', 'e', '5', '2', '7', '7', '8', '0', '8', '7', '2', 'c', 'd', 'a', '0', '2', '1', '6', 'b', 'a', '0', 'd', '8', 'f', 'b', 'd', '5', '8', 'b', '6', '7', 'a', '5', 'd', '5', 'e', '3', '5', '1'] ∧
    (stealthAddress2 (List.replicate 63 '0' ++ ['1'])
        (pad32ByteHex (bnToHex gX)) (pad32ByteHex (bnToHex gY)) ['0', 'd']).toOption =
      some ['0', 'x', 'c', '3', 'd', '3', '4', 'f', '9', 'f', 'f', 'b', '3', '0', 'b', '5', '3', 'c', 'a', '7', 'e', '2', 'd', '7', 'd', 'f', '2', 'e', 'f', '8', '0', '2', '4', '0', '1', '8', '7', '0', '0', '6', '3', '5'] ∧
    (['0', 'x', '6', '8', 'e', '5', '2', '7', '7', '8', '0', '8', '7', '2', 'c', 'd', 'a', '0', '2', '1', '6', 'b', 'a', '0', 'd', '8', 'f', 'b', 'd', '5', '8', 'b', '6', '7', 'a', '5', 'd', '5', 'e', '3', '5', '1'] : List Char) ≠
      ['0', 'x', 'c', '3', 'd', '3', '4', 'f', '9', 'f', 'f', 'b', '3', '0', 'b', '5', '3', 'c', 'a', '7', 'e', '2', 'd', '7', 'd', 'f', '2', 'e', 'f', '8', '0', '2', '4', '0', '1', '8', '7', '0', '0', '6', '3', '5'] := by
  refine ⟨by decide, by decide, by decide⟩

/-! ### Recipient Resolver (modelled from the spec)

The implementation behind `lookupRecipient` lives in `src/utils/utils.ts`
of the umbra-js package, which is not under src/ — only its test file is.
The definitions below are therefore modelled from the specification
(sections 3, 4.1, 4.3 and 4.4). -/

/-- Modelled from the spec: the secp256k1 curve-equation test used by
`pointFromPublicKey` (section 4.1): `y² = x³ + 7` over the base field. -/
def onCurve (x y : Nat) : Bool :=
  y * y % pSecp == (x * x * x + 7) % pSecp

/-- Modelled from the spec: `pointFromPublicKey` (section 4.1) splits the
coordinate part of an uncompressed key into X and Y and fails with
`PointNotOnCurve` when the coordinates do not satisfy the curve equation. -/
def pointFromPublicKey (coordsHex : List Char) : Except PocError (Nat × Nat) :=
  let x := natOfHex (coordsHex.take 64)
  let y := natOfHex (coordsHex.drop 64)
  if onCurve x y then Except.ok (x, y) else Except.error PocError.PointNotOnCurve

/-- Modelled from the spec: the tagged identifier variants of section 3.
A raw public key is carried as its full `0x04`-prefixed hex string. -/
inductive Identifier where
  | pubKey (keyHex : List Char)
  | txHash (hashHex : List Char)
  | address (addressHex : List Char)
  | nsName (nameChars : List Char)

/-- The resolver mode flags of section 4.4, all defaulting to false. -/
structure LookupOptions where
  advanced : Bool := false
  supportPubKey : Bool := false
  supportTxHash : Bool := false

/-- A recipient's published spending/viewing key pair (section 3). -/
structure PublicKeyPair where
  spendingPublicKey : List Char
  viewingPublicKey : List Char
deriving DecidableEq

/-- The external collaborators of sections 4.4-4.5 and 6, passed as
functions: transaction-based key recovery, name resolution, the stealth
key registry, and recovery from an address's latest sent transaction. -/
structure Collaborators where
  recoverFromTx : List Char → Except PocError (List Char)
  resolveName : List Char → Option (List Char)
  registry : List Char → Option PublicKeyPair
  recoverFromHistory : List Char → Except PocError (List Char)

/-- Modelled from the spec: the address branch of `lookupRecipient`
(section 4.4): advanced mode recovers the key from the address's most
recent sent transaction, default mode consults the registry and fails
`NotRegistered` when absent. -/
def lookupByAddress (a : List Char) (opts : LookupOptions) (co : Collaborators) :
    Except PocError PublicKeyPair :=
  if opts.advanced then
    match co.recoverFromHistory a with
    | Except.ok k => Except.ok ⟨k, k⟩
    | Except.error e => Except.error e
  else
    match co.registry a with
    | some pair => Except.ok pair
    | none => Except.error PocError.NotRegistered

/-- Modelled from the spec: `lookupRecipient` (section 4.4).  A raw public
key is permitted only with `supportPubKey` (else `UnsupportedIdentifier`),
is validated against the curve equation, and is returned as both spending
and viewing key; a transaction hash is permitted only with
`supportTxHash`; addresses and names resolve through the registry or the
live-recovery path. -/
def lookupRecipient (id : Identifier) (opts : LookupOptions) (co : Collaborators) :
    Except PocError PublicKeyPair :=
  match id with
  | Identifier.pubKey keyHex =>
    if opts.supportPubKey then
      match pointFromPublicKey (keyHex.drop 4) with
      | Except.ok _ => Except.ok ⟨keyHex, keyHex⟩
      | Except.error e => Except.error e
    else Except.error PocError.UnsupportedIdentifier
  | Identifier.txHash hashHex =>
    if opts.supportTxHash then
      match co.recoverFromTx hashHex with
      | Except.ok k => Except.ok ⟨k, k⟩
      | Except.error e => Except.error e
    else Except.error PocError.UnsupportedIdentifier
  | Identifier.address a => lookupByAddress a opts co
  | Identifier.nsName nm =>
    match co.resolveName nm with
    | some a => lookupByAddress a opts co
    | none => Except.error PocError.IdentifierNotResolved

/-! ### Claim C3: off-curve public keys — resolver versus poc deriver

The resolver (absent from src/, modelled from spec section 4.4 above)
validates the curve equation.  The stealth key deriver, however, is in
src/: poc.js lines 89-116, embedded as `stealthAddress`, whose decode at
lines 98-101 is elliptic's `keyFromPublic({x, y})` — it constructs the
point without any curve-equation check, so an off-curve key is accepted
and multiplied, and a stealth address is produced. -/

/-- Claim C3 (counterexample): at the off-curve point `(1, 1)` and shared
secret `2`, the deriver of poc.js lines 89-116 does not fail with
`PointNotOnCurve`: it accepts the coordinates and computes a concrete
stealth address. -/
theorem offCurve_deriver_produces_address :
    onCurve 1 1 = false ∧
    stealthAddress (List.replicate 63 '0' ++ ['1'])
        (List.replicate 63 '0' ++ ['1']) ['0', '2'] =
      some ['0', 'x', '3', '9', '8', '3', '1', '1', '6', '0', '2', '8', '7', 'a', '1', 'b', '8', '1', '5', '1', '3', '4', '6', '0', '7', '5', '3', 'b', 'f', 'c', '1', '4', '2', '1', '4', '2', 'd', '4', 'a', 'd', '7', '6'] :=
  ⟨by decide, by decide⟩

/-- Claim C3 (amended): a public key whose coordinates fail the curve
equation is rejected with `PointNotOnCurve` by the resolver (with
`supportPubKey` enabled); the poc.js stealth key deriver performs no
curve-equation check — whenever the stealth point exists it returns the
address computed from the undecoded coordinates, off-curve or not. -/
theorem offCurve_resolver_rejects_deriver_unchecked
    (keyHex pubX pubY rv : List Char) (opts : LookupOptions)
    (co : Collaborators)
    (hPub : opts.supportPubKey = true)
    (hOff : onCurve (natOfHex ((keyHex.drop 4).take 64))
        (natOfHex ((keyHex.drop 4).drop 64)) = false) :
    lookupRecipient (Identifier.pubKey keyHex) opts co =
      Except.error PocError.PointNotOnCurve ∧
    ∀ S, ecMul (natOfHex rv) (some (natOfHex pubX, natOfHex pubY)) = some S →
      stealthAddress pubX pubY rv =
        some (addressOfHashBytes (keccak256 (bufferFromHex
          (pad32ByteHex (bnToHex S.1) ++ pad32ByteHex (bnToHex S.2))))) := by
  simp only [List.drop_drop] at hOff
  refine ⟨?_, ?_⟩
  · simp [lookupRecipient, pointFromPublicKey, hPub, hOff]
  · intro S hS
    obtain ⟨sx, sy⟩ := S
    simp [stealthAddress, hS]

/-- Witness for the amended C3 at the off-curve point `(1, 1)`. -/
theorem offCurve_resolver_rejects_deriver_unchecked_witness :
    lookupRecipient
        (Identifier.pubKey (['0', 'x', '0', '4'] ++ List.replicate 63 '0' ++
          ['1'] ++ List.replicate 63 '0' ++ ['1']))
        ⟨false, true, false⟩
        ⟨fun _ => Except.error PocError.NotRegistered, fun _ => none,
          fun _ => none, fun _ => Except.error PocError.NotRegistered⟩ =
      Except.error PocError.PointNotOnCurve ∧
    stealthAddress (List.replicate 63 '0' ++ ['1'])
        (List.replicate 63 '0' ++ ['1']) ['0', '2'] =
      some (addressOfHashBytes (keccak256 (bufferFromHex
        (pad32ByteHex (bnToHex
          0x3fffffffffffffffffffffffffffffffffffffffffffffffffffffffbfffff0c) ++
          pad32ByteHex (bnToHex
          0x1fffffffffffffffffffffffffffffffffffffffffffffffffffffffdfffff86))))) :=
  ⟨(offCurve_resolver_rejects_deriver_unchecked
      (['0', 'x', '0', '4'] ++ List.replicate 63 '0' ++ ['1'] ++
        List.replicate 63 '0' ++ ['1'])
      (List.replicate 63 '0' ++ ['1']) (List.replicate 63 '0' ++ ['1'])
      ['0', '2'] ⟨false, true, false⟩
      ⟨fun _ => Except.error PocError.NotRegistered, fun _ => none,
        fun _ => none, fun _ => Except.error PocError.NotRegistered⟩
      rfl (by decide)).1,
    (offCurve_resolver_rejects_deriver_unchecked
      (['0', 'x', '0', '4'] ++ List.replicate 63 '0' ++ ['1'] ++
        List.replicate 63 '0' ++ ['1'])
      (List.replicate 63 '0' ++ ['1']) (List.replicate 63 '0' ++ ['1'])
      ['0', '2'] ⟨false, true, false⟩
      ⟨fun _ => Except.error PocError.NotRegistered, fun _ => none,
        fun _ => none, fun _ => Except.error PocError.NotRegistered⟩
      rfl (by decide)).2
      (0x3fffffffffffffffffffffffffffffffffffffffffffffffffffffffbfffff0c,
        0x1fffffffffffffffffffffffffffffffffffffffffffffffffffffffdfffff86)
      (by decide)⟩

/-! ### Claim C6: the `supportPubKey` gate -/

/-- Claim C6: when the identifier parses as a raw public key, the resolver
returns that same key as both spending and viewing key if `supportPubKey`
is set (and the key is a valid curve point), and fails with
`UnsupportedIdentifier` if `supportPubKey` is not set — never a silent
fallback to another resolution path. -/
theorem lookupRecipient_pubKey_gate (keyHex : List Char) (opts : LookupOptions)
    (co : Collaborators) :
    (opts.supportPubKey = true →
      onCurve (natOfHex ((keyHex.drop 4).take 64))
          (natOfHex ((keyHex.drop 4).drop 64)) = true →
      lookupRecipient (Identifier.pubKey keyHex) opts co =
        Except.ok ⟨keyHex, keyHex⟩) ∧
    (opts.supportPubKey = false →
      lookupRecipient (Identifier.pubKey keyHex) opts co =
        Except.error PocError.UnsupportedIdentifier) := by
  constructor
  · intro h1 h2
    simp only [List.drop_drop] at h2
    simp [lookupRecipient, pointFromPublicKey, h1, h2]
  · intro h1
    simp [lookupRecipient, h1]

/-- Witness for C6 at the generator's public key under both flag values. -/
theorem lookupRecipient_pubKey_gate_witness :
    lookupRecipient
        (Identifier.pubKey (['0', 'x', '0', '4'] ++ pad32ByteHex (bnToHex gX) ++
          pad32ByteHex (bnToHex gY)))
        ⟨false, true, false⟩
        ⟨fun _ => Except.error PocError.NotRegistered, fun _ => none,
          fun _ => none, fun _ => Except.error PocError.NotRegistered⟩ =
      Except.ok
        ⟨['0', 'x', '0', '4'] ++ pad32ByteHex (bnToHex gX) ++
            pad32ByteHex (bnToHex gY),
          ['0', 'x', '0', '4'] ++ pad32ByteHex (bnToHex gX) ++
            pad32ByteHex (bnToHex gY)⟩ ∧
    lookupRecipient
        (Identifier.pubKey (['0', 'x', '0', '4'] ++ pad32ByteHex (bnToHex gX) ++
          pad32ByteHex (bnToHex gY)))
        ⟨false, false, false⟩
        ⟨fun _ => Except.error PocError.NotRegistered, fun _ => none,
          fun _ => none, fun _ => Except.error PocError.NotRegistered⟩ =
      Except.error PocError.UnsupportedIdentifier :=
  ⟨(lookupRecipient_pubKey_gate _ _ _).1 rfl (by decide),
    (lookupRecipient_pubKey_gate _ _ _).2 rfl⟩

/-! ### Announcement Scanner: `sortStealthKeyLogs` (modelled from the spec)

The implementation lives in `src/utils/utils.ts`, not under src/; the
specification (section 4.5) fixes its contract: a pure, stable sort of the
announcement events by ascending `blockNumber`.  Events are modelled with
their block number and an opaque payload that distinguishes same-block
events, and the sort as a stable insertion sort. -/

/-- An announcement event: a block number plus opaque payload. -/
structure StealthKeyLog where
  blockNumber : Nat
  payload : Nat
deriving DecidableEq, Repr

/-- Modelled from the spec: stable insertion step — an event is placed
before the first already-sorted event with a block number that is not
smaller, so earlier input events keep priority among equals. -/
def insertLog (e : StealthKeyLog) : List StealthKeyLog → List StealthKeyLog
  | [] => [e]
  | x :: xs =>
    if e.blockNumber ≤ x.blockNumber then e :: x :: xs else x :: insertLog e xs

/-- Modelled from the spec: `sortStealthKeyLogs` (section 4.5). -/
def sortStealthKeyLogs : List StealthKeyLog → List StealthKeyLog
  | [] => []
  | x :: xs => insertLog x (sortStealthKeyLogs xs)

theorem mem_insertLog (e y : StealthKeyLog) (l : List StealthKeyLog) :
    y ∈ insertLog e l ↔ y = e ∨ y ∈ l := by
  induction l with
  | nil => simp [insertLog]
  | cons x xs ih =>
    by_cases h : e.blockNumber ≤ x.blockNumber
    · rw [insertLog, if_pos h]
      simp [List.mem_cons]
    · rw [insertLog, if_neg h]
      simp only [List.mem_cons, ih]
      tauto

theorem pairwise_insertLog (e : StealthKeyLog) (l : List StealthKeyLog)
    (hl : l.Pairwise (fun a b => a.blockNumber ≤ b.blockNumber)) :
    (insertLog e l).Pairwise (fun a b => a.blockNumber ≤ b.blockNumber) := by
  induction l with
  | nil => simp [insertLog]
  | cons x xs ih =>
    rw [List.pairwise_cons] at hl
    by_cases h : e.blockNumber ≤ x.blockNumber
    · rw [insertLog, if_pos h, List.pairwise_cons]
      refine ⟨fun z hz => ?_, List.pairwise_cons.mpr hl⟩
      rcases List.mem_cons.mp hz with hzx | hzxs
      · subst hzx; exact h
      · exact le_trans h (hl.1 z hzxs)
    · rw [insertLog, if_neg h, List.pairwise_cons]
      refine ⟨fun z hz => ?_, ih hl.2⟩
      rcases (mem_insertLog e z xs).mp hz with hze | hzxs
      · subst hze; omega
      · exact hl.1 z hzxs

theorem filter_insertLog_eq (e : StealthKeyLog) (l : List StealthKeyLog)
    (b : Nat) (hb : e.blockNumber = b) :
    (insertLog e l).filter (fun x => x.blockNumber == b) =
      e :: l.filter (fun x => x.blockNumber == b) := by
  subst hb
  induction l with
  | nil => simp [insertLog]
  | cons x xs ih =>
    by_cases h : e.blockNumber ≤ x.blockNumber
    · rw [insertLog, if_pos h]
      simp [List.filter_cons]
    · have hxb : x.blockNumber ≠ e.blockNumber := by omega
      rw [insertLog, if_neg h, List.filter_cons, List.filter_cons]
      simp [hxb, ih]

theorem filter_insertLog_ne (e : StealthKeyLog) (l : List StealthKeyLog)
    (b : Nat) (hb : e.blockNumber ≠ b) :
    (insertLog e l).filter (fun x => x.blockNumber == b) =
      l.filter (fun x => x.blockNumber == b) := by
  induction l with
  | nil => simp [insertLog, List.filter_cons, hb]
  | cons x xs ih =>
    by_cases h : e.blockNumber ≤ x.blockNumber
    · rw [insertLog, if_pos h, List.filter_cons]
      simp [hb]
    · rw [insertLog, if_neg h, List.filter_cons, List.filter_cons]
      rw [ih]

/-- Claim C8: `sortStealthKeyLogs` is a pure function that totally orders
its input by ascending block number, maps the concrete input with block
numbers `[3, 2, 1]` to `[1, 2, 3]`, and is stable — for every input, the
subsequence of events carrying any fixed block number is preserved. -/
theorem sortStealthKeyLogs_spec :
    (∀ l : List StealthKeyLog,
      (sortStealthKeyLogs l).Pairwise (fun a b => a.blockNumber ≤ b.blockNumber)) ∧
    sortStealthKeyLogs [⟨3, 10⟩, ⟨2, 11⟩, ⟨1, 12⟩] = [⟨1, 12⟩, ⟨2, 11⟩, ⟨3, 10⟩] ∧
    ∀ (l : List StealthKeyLog) (b : Nat),
      (sortStealthKeyLogs l).filter (fun e => e.blockNumber == b) =
        l.filter (fun e => e.blockNumber == b) := by
  refine ⟨fun l => ?_, by decide, fun l b => ?_⟩
  · induction l with
    | nil => simp [sortStealthKeyLogs]
    | cons x xs ih => exact pairwise_insertLog x _ ih
  · induction l with
    | nil => simp [sortStealthKeyLogs]
    | cons x xs ih =>
      rw [sortStealthKeyLogs, List.filter_cons]
      by_cases hxb : x.blockNumber = b
      · rw [filter_insertLog_eq x _ b hxb, ih]
        simp [hxb]
      · rw [filter_insertLog_ne x _ b hxb, ih]
        simp [hxb]

/-- Witness for C8: a same-block pair keeps its input order. -/
theorem sortStealthKeyLogs_spec_witness :
    (sortStealthKeyLogs [⟨2, 0⟩, ⟨1, 1⟩, ⟨1, 2⟩]).Pairwise
      (fun a b => a.blockNumber ≤ b.blockNumber) ∧
    (sortStealthKeyLogs [⟨2, 0⟩, ⟨1, 1⟩, ⟨1, 2⟩]).filter
        (fun e => e.blockNumber == 1) =
      ([⟨2, 0⟩, ⟨1, 1⟩, ⟨1, 2⟩] : List StealthKeyLog).filter
        (fun e => e.blockNumber == 1) :=
  ⟨sortStealthKeyLogs_spec.1 _, sortStealthKeyLogs_spec.2.2 _ 1⟩

end StealthPayments
